import Mathlib

/-!
# Verification of the superkey real-time keyer engine

Shallow embedding of the keyer core of the `superkey` firmware:
the monotonic tick substrate (`src/main/core/sys.c`), the WPM timing
calculator (`src/main/application/wpm.c`) and the keyer state machine with
its autokey queue (`src/main/application/keyer.c`).

Machine integers (`tick_t` = `uint32_t`, `size_t`) are modelled as `Nat`
with explicit `% 2^32` where wraparound matters.  The floating-point
duration computation of `wpm_ticks` is modelled over `ℚ`; at the inputs the
claims evaluate it on, every intermediate value is exactly representable in
binary32, so the rational model agrees with the C float computation there.
-/

namespace Superkey

/-! ## Tick substrate (`src/main/core/sys.c`) -/

/-- `TICK_MAX` (`UINT32_MAX`) from `src/main/core/sys.h`. -/
def TICK_MAX : Nat := 4294967295

/-- `TICKS_PER_MSEC` from `src/main/core/sys.h`. -/
def TICKS_PER_MSEC : Nat := 1

/-- Modulus of the 32-bit tick counter. -/
def U32 : Nat := 4294967296

/-- 32-bit wrapping addition. -/
def add32 (a b : Nat) : Nat := (a + b) % U32

/-- 32-bit wrapping subtraction (operands reduced mod `2^32`). -/
def sub32 (a b : Nat) : Nat := (a % U32 + U32 - b % U32) % U32

/-- `sys_elapsed` from `src/main/core/sys.c`: wraparound-safe elapsed ticks.
The sum of the `else` branch is computed in `uint32_t` arithmetic. -/
def sys_elapsed (now prev : Nat) : Nat :=
  if now ≥ prev then now - prev
  else ((TICK_MAX - prev + 1) + now) % U32

/-- `sys_is_tick_gt` from `src/main/core/sys.c`: ring-aware `a > b`. -/
def sys_is_tick_gt (a b : Nat) : Bool :=
  (decide (a > b) && decide (a - b ≤ TICK_MAX / 2)) ||
  (decide (b > a) && decide (b - a > TICK_MAX / 2))

/-- `sys_is_tick_gte` from `src/main/core/sys.c`. -/
def sys_is_tick_gte (a b : Nat) : Bool :=
  decide (a = b) || sys_is_tick_gt a b

/-! ## Morse elements and timing calculator (`src/main/application/wpm.c`) -/

/-- `wpm_element_t` from `src/main/application/wpm.h`. -/
inductive Element where
  | dot
  | dash
  | elSpace
  | letterSpace
  | wordSpace
  | noneEl
  | unknownEl
deriving DecidableEq, Repr

/-- `wpm_element_is_keyed` from `src/main/application/wpm.c`. -/
def wpm_element_is_keyed (el : Element) : Bool :=
  decide (el = Element.dot) || decide (el = Element.dash)

/-- `wpm_ticks_t`: per-element tick counts (array indexed by the five valid
elements in `src/main/application/wpm.h`). -/
structure WpmTicks where
  dot : Nat
  dash : Nat
  elSpace : Nat
  letterSpace : Nat
  wordSpace : Nat
deriving DecidableEq, Repr

/-- Array indexing `s_ticks[ el ]` for the five valid elements.  The C code
never indexes the table with `NONE`/`UNKNOWN`; those map to 0 here. -/
def WpmTicks.get (t : WpmTicks) : Element → Nat
  | Element.dot => t.dot
  | Element.dash => t.dash
  | Element.elSpace => t.elSpace
  | Element.letterSpace => t.letterSpace
  | Element.wordSpace => t.wordSpace
  | Element.noneEl => 0
  | Element.unknownEl => 0

/-- `WPM_MINIMUM` from `src/main/application/wpm.h`. -/
def WPM_MINIMUM : ℚ := 1

/-- `WPM_MAXIMUM` from `src/main/application/wpm.h`. -/
def WPM_MAXIMUM : ℚ := 100

/-- `WORD_UNIT_LENGTH` from `src/main/application/wpm.c` (length of "PARIS"
in code units). -/
def WORD_UNIT_LENGTH : ℚ := 50

/-- `MSEC_PER_MIN` from `src/main/application/wpm.c`. -/
def MSEC_PER_MIN : ℚ := 60000

/-- `wpm_ticks` from `src/main/application/wpm.c`.  Floats are modelled as
rationals; `roundf` (round half away from zero) agrees with `round` (round
half up) on the non-negative values produced here.  An out-of-range speed
returns with the table unchanged (`old`). -/
def wpm_ticks (wpm : ℚ) (scale : Element → ℚ) (old : WpmTicks) : WpmTicks :=
  if wpm < WPM_MINIMUM ∨ wpm > WPM_MAXIMUM then old
  else
    let unit_ms : ℚ := MSEC_PER_MIN / (wpm * WORD_UNIT_LENGTH)
    { dot := (round (1 * unit_ms * scale Element.dot)).toNat * TICKS_PER_MSEC
      dash := (round (3 * unit_ms * scale Element.dash)).toNat * TICKS_PER_MSEC
      elSpace := (round (1 * unit_ms * scale Element.elSpace)).toNat * TICKS_PER_MSEC
      letterSpace := (round (3 * unit_ms * scale Element.letterSpace)).toNat * TICKS_PER_MSEC
      wordSpace := (round (7 * unit_ms * scale Element.wordSpace)).toNat * TICKS_PER_MSEC }

/-! ## Autokey circular buffer (`src/main/application/keyer.c`) -/

/-- `AUTOKEY_BUF_SZ` from `src/main/application/keyer.c`. -/
def AUTOKEY_BUF_SZ : Nat := 4096

/-- `increment_rollover` macro from `src/exakey/utility/utility.h`:
increment, and reset to 0 once the result reaches `max`. -/
def increment_rollover (v max : Nat) : Nat :=
  if v + 1 ≥ max then 0 else v + 1

/-- The autokey circular buffer: `s_autokey_buf` / `s_autokey_head` /
`s_autokey_tail` from `src/main/application/keyer.c`. -/
structure AutokeyQueue where
  buf : Nat → Element
  head : Nat
  tail : Nat

/-- `autokey_count` from `src/main/application/keyer.c`. -/
def autokey_count (q : AutokeyQueue) : Nat :=
  if q.head ≥ q.tail then q.head - q.tail
  else AUTOKEY_BUF_SZ - q.tail + q.head

/-- `autokey_avail` from `src/main/application/keyer.c`. -/
def autokey_avail (q : AutokeyQueue) : Nat :=
  AUTOKEY_BUF_SZ - autokey_count q - 1

/-- `autokey_enqueue` from `src/main/application/keyer.c`: fails (leaving the
queue untouched) when no slot is available. -/
def autokey_enqueue (q : AutokeyQueue) (el : Element) : Bool × AutokeyQueue :=
  if autokey_avail q = 0 then (false, q)
  else
    (true,
      { q with
        buf := Function.update q.buf q.head el
        head := increment_rollover q.head AUTOKEY_BUF_SZ })

/-- `autokey_dequeue` from `src/main/application/keyer.c`: fails (leaving the
queue untouched) when empty. -/
def autokey_dequeue (q : AutokeyQueue) : Option (Element × AutokeyQueue) :=
  if autokey_count q = 0 then Option.none
  else
    Option.some (q.buf q.tail,
      { q with tail := increment_rollover q.tail AUTOKEY_BUF_SZ })

/-- The queue at program start: statics are zero-initialized. -/
def emptyQueue : AutokeyQueue :=
  { buf := fun _ => Element.dot, head := 0, tail := 0 }

/-- Well-formedness maintained by the C code: head and tail index the
4096-slot array. -/
def AutokeyQueue.wf (q : AutokeyQueue) : Prop :=
  q.head < AUTOKEY_BUF_SZ ∧ q.tail < AUTOKEY_BUF_SZ

instance (q : AutokeyQueue) : Decidable q.wf := by
  unfold AutokeyQueue.wf; infer_instance

/-- Abstraction: the stored elements, tail first. -/
def toList (q : AutokeyQueue) : List Element :=
  (List.range (autokey_count q)).map
    (fun i => q.buf ((q.tail + i) % AUTOKEY_BUF_SZ))

/-! ## Autokey character encoder (`keyer_autokey_char` switch) -/

/-- The element run enqueued for each case of the `switch` statement in
`keyer_autokey_char` (`src/main/application/keyer.c`), in source order.
Note that the `'!'` and `'-'` cases end without a `LETTER_SPACE`. -/
def morse_table : List (Char × List Element) :=
  [ (' ', [Element.wordSpace]),
    ('a', [Element.dot, Element.dash, Element.letterSpace]),
    ('A', [Element.dot, Element.dash, Element.letterSpace]),
    ('b', [Element.dash, Element.dot, Element.dot, Element.dot, Element.letterSpace]),
    ('B', [Element.dash, Element.dot, Element.dot, Element.dot, Element.letterSpace]),
    ('c', [Element.dash, Element.dot, Element.dash, Element.dot, Element.letterSpace]),
    ('C', [Element.dash, Element.dot, Element.dash, Element.dot, Element.letterSpace]),
    ('d', [Element.dash, Element.dot, Element.dot, Element.letterSpace]),
    ('D', [Element.dash, Element.dot, Element.dot, Element.letterSpace]),
    ('e', [Element.dot, Element.letterSpace]),
    ('E', [Element.dot, Element.letterSpace]),
    ('f', [Element.dot, Element.dot, Element.dash, Element.dot, Element.letterSpace]),
    ('F', [Element.dot, Element.dot, Element.dash, Element.dot, Element.letterSpace]),
    ('g', [Element.dash, Element.dash, Element.dot, Element.letterSpace]),
    ('G', [Element.dash, Element.dash, Element.dot, Element.letterSpace]),
    ('h', [Element.dot, Element.dot, Element.dot, Element.dot, Element.letterSpace]),
    ('H', [Element.dot, Element.dot, Element.dot, Element.dot, Element.letterSpace]),
    ('i', [Element.dot, Element.dot, Element.letterSpace]),
    ('I', [Element.dot, Element.dot, Element.letterSpace]),
    ('j', [Element.dot, Element.dash, Element.dash, Element.dash, Element.letterSpace]),
    ('J', [Element.dot, Element.dash, Element.dash, Element.dash, Element.letterSpace]),
    ('k', [Element.dash, Element.dot, Element.dash, Element.letterSpace]),
    ('K', [Element.dash, Element.dot, Element.dash, Element.letterSpace]),
    ('l', [Element.dot, Element.dash, Element.dot, Element.dot, Element.letterSpace]),
    ('L', [Element.dot, Element.dash, Element.dot, Element.dot, Element.letterSpace]),
    ('m', [Element.dash, Element.dash, Element.letterSpace]),
    ('M', [Element.dash, Element.dash, Element.letterSpace]),
    ('n', [Element.dash, Element.dot, Element.letterSpace]),
    ('N', [Element.dash, Element.dot, Element.letterSpace]),
    ('o', [Element.dash, Element.dash, Element.dash, Element.letterSpace]),
    ('O', [Element.dash, Element.dash, Element.dash, Element.letterSpace]),
    ('p', [Element.dot, Element.dash, Element.dash, Element.dot, Element.letterSpace]),
    ('P', [Element.dot, Element.dash, Element.dash, Element.dot, Element.letterSpace]),
    ('q', [Element.dash, Element.dash, Element.dot, Element.dash, Element.letterSpace]),
    ('Q', [Element.dash, Element.dash, Element.dot, Element.dash, Element.letterSpace]),
    ('r', [Element.dot, Element.dash, Element.dot, Element.letterSpace]),
    ('R', [Element.dot, Element.dash, Element.dot, Element.letterSpace]),
    ('s', [Element.dot, Element.dot, Element.dot, Element.letterSpace]),
    ('S', [Element.dot, Element.dot, Element.dot, Element.letterSpace]),
    ('t', [Element.dash, Element.letterSpace]),
    ('T', [Element.dash, Element.letterSpace]),
    ('u', [Element.dot, Element.dot, Element.dash, Element.letterSpace]),
    ('U', [Element.dot, Element.dot, Element.dash, Element.letterSpace]),
    ('v', [Element.dot, Element.dot, Element.dot, Element.dash, Element.letterSpace]),
    ('V', [Element.dot, Element.dot, Element.dot, Element.dash, Element.letterSpace]),
    ('w', [Element.dot, Element.dash, Element.dash, Element.letterSpace]),
    ('W', [Element.dot, Element.dash, Element.dash, Element.letterSpace]),
    ('x', [Element.dash, Element.dot, Element.dot, Element.dash, Element.letterSpace]),
    ('X', [Element.dash, Element.dot, Element.dot, Element.dash, Element.letterSpace]),
    ('y', [Element.dash, Element.dot, Element.dash, Element.dash, Element.letterSpace]),
    ('Y', [Element.dash, Element.dot, Element.dash, Element.dash, Element.letterSpace]),
    ('z', [Element.dash, Element.dash, Element.dot, Element.dot, Element.letterSpace]),
    ('Z', [Element.dash, Element.dash, Element.dot, Element.dot, Element.letterSpace]),
    ('0', [Element.dash, Element.dash, Element.dash, Element.dash, Element.dash, Element.letterSpace]),
    ('1', [Element.dot, Element.dash, Element.dash, Element.dash, Element.dash, Element.letterSpace]),
    ('2', [Element.dot, Element.dot, Element.dash, Element.dash, Element.dash, Element.letterSpace]),
    ('3', [Element.dot, Element.dot, Element.dot, Element.dash, Element.dash, Element.letterSpace]),
    ('4', [Element.dot, Element.dot, Element.dot, Element.dot, Element.dash, Element.letterSpace]),
    ('5', [Element.dot, Element.dot, Element.dot, Element.dot, Element.dot, Element.letterSpace]),
    ('6', [Element.dash, Element.dot, Element.dot, Element.dot, Element.dot, Element.letterSpace]),
    ('7', [Element.dash, Element.dash, Element.dot, Element.dot, Element.dot, Element.letterSpace]),
    ('8', [Element.dash, Element.dash, Element.dash, Element.dot, Element.dot, Element.letterSpace]),
    ('9', [Element.dash, Element.dash, Element.dash, Element.dash, Element.dot, Element.letterSpace]),
    ('.', [Element.dot, Element.dash, Element.dot, Element.dash, Element.dot, Element.dash, Element.letterSpace]),
    (',', [Element.dash, Element.dash, Element.dot, Element.dot, Element.dash, Element.dash, Element.letterSpace]),
    ('?', [Element.dot, Element.dot, Element.dash, Element.dash, Element.dot, Element.dot, Element.letterSpace]),
    ('\'', [Element.dot, Element.dash, Element.dash, Element.dash, Element.dash, Element.dot, Element.letterSpace]),
    ('!', [Element.dash, Element.dot, Element.dash, Element.dot, Element.dash, Element.dash]),
    ('-', [Element.dash, Element.dot, Element.dot, Element.dot, Element.dot, Element.dash]),
    ('/', [Element.dash, Element.dot, Element.dot, Element.dash, Element.dot, Element.letterSpace]),
    ('=', [Element.dash, Element.dot, Element.dot, Element.dot, Element.dash, Element.letterSpace]),
    ('+', [Element.dot, Element.dash, Element.dot, Element.dash, Element.dot, Element.letterSpace]),
    ('"', [Element.dot, Element.dash, Element.dot, Element.dot, Element.dash, Element.dot, Element.letterSpace]),
    ('_', [Element.dot, Element.dot, Element.dash, Element.dash, Element.dot, Element.dash, Element.letterSpace]) ]

/-- The element run for a character, or `none` for the `default:` case of
the switch (unsupported character). -/
def morse_elements (c : Char) : Option (List Element) :=
  (morse_table.find? (fun e => decide (e.1 = c))).map (fun e => e.2)

/-- Chained `autokey_enqueue( .. ) && autokey_enqueue( .. ) && ...`:
short-circuits on the first failed enqueue. -/
def enqueue_all (q : AutokeyQueue) : List Element → Bool × AutokeyQueue
  | [] => (true, q)
  | el :: rest =>
    match autokey_enqueue q el with
    | (true, q2) => enqueue_all q2 rest
    | (false, q2) => (false, q2)

/-- `keyer_autokey_char` from `src/main/application/keyer.c`, with the queue
state threaded explicitly. -/
def keyer_autokey_char (q : AutokeyQueue) (c : Char) : Bool × AutokeyQueue :=
  match morse_elements c with
  | Option.some els => enqueue_all q els
  | Option.none => (false, q)

/-- `keyer_autokey_str` from `src/main/application/keyer.c`: encodes the
characters left to right, counting the successes. -/
def keyer_autokey_str (q : AutokeyQueue) : List Char → Nat × AutokeyQueue
  | [] => (0, q)
  | c :: rest =>
    match keyer_autokey_char q c with
    | (ok, q2) =>
      match keyer_autokey_str q2 rest with
      | (n, q3) => ((if ok then 1 else 0) + n, q3)

/-! ## Keyer state machine (`src/main/application/keyer.c`) -/

/-- `state_t` from `src/main/application/keyer.c`. -/
inductive State where
  | off
  | on
  | dots
  | dashes
  | interleaved
  | autokey
deriving DecidableEq, Repr, Fintype

/-- `keyer_paddle_mode_t` from `src/main/application/keyer.h` (only the three
valid values; an out-of-range value at dispatch is `fail()`, a fatal defect). -/
inductive PaddleMode where
  | iambic
  | ultimatic
  | ultimaticAlternate
deriving DecidableEq, Repr, Fintype

/-- The environment a keyer tick reads: debounced input states (`io`), the
configuration snapshot (paddle mode/invert), and the WPM settings. -/
structure Env where
  straight_key : Bool
  paddle_left : Bool
  paddle_right : Bool
  paddle_invert : Bool
  paddle_mode : PaddleMode
  wpm : ℚ
  scale : Element → ℚ

/-- The hardware commands last issued by `update_hardware`: the transmit key
output (`io_set_output_state_type`), the key LED and the sidetone buzzer. -/
structure Hw where
  keyOut : Bool
  ledKey : Bool
  buzzer : Bool
deriving DecidableEq, Repr

/-- The keyer module's mutable state (`s_*` statics in
`src/main/application/keyer.c`), including the `static` locals of
`get_next_state` (previous paddle samples) and the last hardware commands. -/
structure Keyer where
  keyed : Bool
  panicked : Bool
  trainer_mode : Bool
  state : State
  el : Element
  lockout_el : Element
  el_stop_tick : Nat
  el_stop_tick_vld : Bool
  el_start_tick : Nat
  el_start_tick_vld : Bool
  autokey : AutokeyQueue
  ticks : WpmTicks
  ticks_tick : Nat
  prev_paddle_left : Bool
  prev_paddle_right : Bool
  hw : Hw

/-- `is_tick_passed` macro. -/
def is_tick_passed (tick timeout : Nat) : Bool := sys_is_tick_gte tick timeout

/-- `is_stop_tick_passed` macro. -/
def is_stop_tick_passed (s : Keyer) (tick : Nat) : Bool :=
  !s.el_stop_tick_vld || is_tick_passed tick s.el_stop_tick

/-- `is_start_tick_passed` macro. -/
def is_start_tick_passed (s : Keyer) (tick : Nat) : Bool :=
  !s.el_start_tick_vld || is_tick_passed tick s.el_start_tick

/-- `update_hardware`: key output follows `keyed` unless trainer mode is on;
LED and buzzer follow `keyed`. -/
def update_hardware (s : Keyer) : Keyer :=
  { s with hw :=
    { keyOut := s.keyed && !s.trainer_mode
      ledKey := s.keyed
      buzzer := s.keyed } }

/-- `set_keyed`: store the flag, then synchronize hardware. -/
def set_keyed (s : Keyer) (b : Bool) : Keyer :=
  update_hardware { s with keyed := b }

/-- `keyer_panic`: set the panicked flag, drop the queue (tail := head),
unkey. -/
def keyer_panic (s : Keyer) : Keyer :=
  set_keyed
    { s with
      panicked := true
      autokey := { s.autokey with tail := s.autokey.head } }
    false

/-- `update_ticks`: recompute the cached element durations unless done less
than 50 ms ago. -/
def update_ticks (e : Env) (tick : Nat) (s : Keyer) : Keyer :=
  if s.ticks_tick ≠ 0 ∧ sys_elapsed tick s.ticks_tick < 50 * TICKS_PER_MSEC then s
  else { s with ticks := wpm_ticks e.wpm e.scale s.ticks, ticks_tick := tick }

/-- The pure next-state selection of `get_next_state`, as a function of the
sampled inputs, the previous paddle samples, the configuration and the
current state. -/
def next_state (autokeyNonempty straight left right prevLeft prevRight invert : Bool)
    (mode : PaddleMode) (cur : State) : State :=
  if autokeyNonempty then State.autokey
  else if straight then State.on
  else if left && right then
    match mode with
    | PaddleMode.iambic => State.interleaved
    | PaddleMode.ultimatic => cur
    | PaddleMode.ultimaticAlternate =>
      if left && !prevLeft then (if invert then State.dashes else State.dots)
      else if right && !prevRight then (if invert then State.dots else State.dashes)
      else cur
  else if (!invert && left) || (invert && right) then State.dots
  else if (!invert && right) || (invert && left) then State.dashes
  else State.off

/-- `get_next_state` applied to the keyer state and environment. -/
def get_next_state (e : Env) (s : Keyer) : State :=
  next_state (decide (autokey_count s.autokey ≠ 0)) e.straight_key
    e.paddle_left e.paddle_right s.prev_paddle_left s.prev_paddle_right
    e.paddle_invert e.paddle_mode s.state

/-- `do_state_autokey`. -/
def do_state_autokey (tick : Nat) (s : Keyer) : Keyer :=
  if !s.panicked && is_start_tick_passed s tick then
    match autokey_dequeue s.autokey with
    | Option.some (el, q2) =>
      let prev_el_was_letter_space := decide (s.el = Element.letterSpace)
      let prev_lockout_el_was_keyed := wpm_element_is_keyed s.lockout_el
      let s := { s with autokey := q2, el := el }
      if wpm_element_is_keyed el then
        set_keyed
          { s with
            lockout_el := el
            el_stop_tick := add32 tick (s.ticks.get el)
            el_stop_tick_vld := true
            el_start_tick := add32 (add32 tick (s.ticks.get el)) (s.ticks.get Element.elSpace)
            el_start_tick_vld := true }
          true
      else
        { s with
          el_stop_tick := 0
          el_stop_tick_vld := false
          el_start_tick :=
            sub32
              (sub32 (add32 tick (s.ticks.get el))
                (if prev_lockout_el_was_keyed then s.ticks.get Element.elSpace else 0))
              (if prev_el_was_letter_space then
                sub32 (s.ticks.get Element.letterSpace) (s.ticks.get Element.elSpace)
              else 0)
          el_start_tick_vld := true }
    | Option.none =>
      if is_stop_tick_passed s tick && s.keyed then set_keyed s false else s
  else if is_stop_tick_passed s tick && s.keyed then set_keyed s false
  else s

/-- Shared body of `do_state_dots` / `do_state_dashes` /
`do_state_interleaved`, with the element to key passed in. -/
def do_state_element (tick : Nat) (el : Element) (s : Keyer) : Keyer :=
  if !s.panicked && is_start_tick_passed s tick && !s.keyed then
    set_keyed
      { s with
        el := el
        lockout_el := el
        el_stop_tick := add32 tick (s.ticks.get el)
        el_stop_tick_vld := true
        el_start_tick := add32 (add32 tick (s.ticks.get el)) (s.ticks.get Element.elSpace)
        el_start_tick_vld := true }
      true
  else if is_stop_tick_passed s tick && s.keyed then set_keyed s false
  else s

/-- `do_state_dots`. -/
def do_state_dots (tick : Nat) (s : Keyer) : Keyer :=
  do_state_element tick Element.dot s

/-- `do_state_dashes`. -/
def do_state_dashes (tick : Nat) (s : Keyer) : Keyer :=
  do_state_element tick Element.dash s

/-- `do_state_interleaved`: alternate, continuing from the lockout element. -/
def do_state_interleaved (tick : Nat) (s : Keyer) : Keyer :=
  do_state_element tick
    (if s.lockout_el = Element.dot then Element.dash else Element.dot) s

/-- `do_state_off`: unkey once the stop tick passes, then clear bookkeeping
once the start tick passes (two sequential `if`s). -/
def do_state_off (tick : Nat) (s : Keyer) : Keyer :=
  let s := if s.keyed && is_stop_tick_passed s tick then set_keyed s false else s
  if s.el ≠ Element.noneEl ∧ is_start_tick_passed s tick = true then
    { s with
      el := Element.noneEl
      lockout_el := Element.noneEl
      el_stop_tick := 0
      el_stop_tick_vld := false
      el_start_tick := 0
      el_start_tick_vld := false }
  else s

/-- `do_state_on`: key continuously, unless panicked. -/
def do_state_on (new_state : Bool) (s : Keyer) : Keyer :=
  if !s.panicked && (new_state || !s.keyed) then
    set_keyed
      { s with
        el := Element.unknownEl
        lockout_el := Element.unknownEl
        el_stop_tick := 0
        el_stop_tick_vld := false
        el_start_tick := 0
        el_start_tick_vld := false }
      true
  else s

/-- `keyer_tick`: refresh the duration cache, select the next state (also
updating the `static` previous-paddle samples), clear the panic flag on a
transition, then execute the selected state. -/
def keyer_tick (e : Env) (tick : Nat) (s : Keyer) : Keyer :=
  let s := update_ticks e tick s
  let nextSt := get_next_state e s
  let new_state := decide (nextSt ≠ s.state)
  let s := { s with
    state := nextSt
    prev_paddle_left := e.paddle_left
    prev_paddle_right := e.paddle_right }
  let s := if new_state && s.panicked then { s with panicked := false } else s
  match s.state with
  | State.off => do_state_off tick s
  | State.on => do_state_on new_state s
  | State.dots => do_state_dots tick s
  | State.dashes => do_state_dashes tick s
  | State.interleaved => do_state_interleaved tick s
  | State.autokey => do_state_autokey tick s

/-- `keyer_init`: reset the module state (note: the autokey head/tail and the
`static` locals of `get_next_state` are not touched), unkey, refresh the
duration cache. -/
def keyer_init (e : Env) (tick : Nat) (s : Keyer) : Keyer :=
  let s :=
    { s with
      keyed := false
      panicked := false
      trainer_mode := false
      state := State.off
      el := Element.noneEl
      lockout_el := Element.noneEl
      el_stop_tick := 0
      el_stop_tick_vld := false
      el_start_tick := 0
      el_start_tick_vld := false
      ticks := { dot := 0, dash := 0, elSpace := 0, letterSpace := 0, wordSpace := 0 }
      ticks_tick := 0 }
  let s := set_keyed s false
  update_ticks e tick s

/-- `keyer_set_trainer_mode_enabled`. -/
def keyer_set_trainer_mode_enabled (enabled : Bool) (s : Keyer) : Keyer :=
  update_hardware { s with trainer_mode := enabled }

/-! ## Queue abstraction lemmas -/

theorem count_lt_of_wf (q : AutokeyQueue) (h : q.wf) :
    autokey_count q < AUTOKEY_BUF_SZ := by
  obtain ⟨h1, h2⟩ := h
  unfold autokey_count
  split_ifs <;> simp [AUTOKEY_BUF_SZ] at * <;> omega

theorem tail_add_count_mod (q : AutokeyQueue) (h : q.wf) :
    (q.tail + autokey_count q) % AUTOKEY_BUF_SZ = q.head := by
  obtain ⟨h1, h2⟩ := h
  unfold autokey_count
  split_ifs with hge
  · rw [Nat.add_sub_cancel' hge, Nat.mod_eq_of_lt h1]
  · have heq : q.tail + (AUTOKEY_BUF_SZ - q.tail + q.head) = AUTOKEY_BUF_SZ + q.head := by
      omega
    rw [heq, Nat.add_mod_left, Nat.mod_eq_of_lt h1]

theorem increment_rollover_eq_mod (v : Nat) (h : v < AUTOKEY_BUF_SZ) :
    increment_rollover v AUTOKEY_BUF_SZ = (v + 1) % AUTOKEY_BUF_SZ := by
  unfold increment_rollover
  split_ifs with hge
  · have heq : v + 1 = AUTOKEY_BUF_SZ := by omega
    rw [heq, Nat.mod_self]
  · rw [Nat.mod_eq_of_lt]; omega

theorem mod_add_inj {i j n t : Nat} (hi : i < n) (hj : j < n)
    (h : (t + i) % n = (t + j) % n) : i = j := by
  have hm : i % n = j % n := Nat.ModEq.add_left_cancel' t h
  rwa [Nat.mod_eq_of_lt hi, Nat.mod_eq_of_lt hj] at hm

theorem length_toList (q : AutokeyQueue) : (toList q).length = autokey_count q := by
  unfold toList
  rw [List.length_map, List.length_range]

theorem count_enqueue (q : AutokeyQueue) (el : Element) (hwf : q.wf)
    (h : autokey_avail q ≠ 0) :
    autokey_count
      { q with
        buf := Function.update q.buf q.head el
        head := increment_rollover q.head AUTOKEY_BUF_SZ } =
      autokey_count q + 1 := by
  obtain ⟨h1, h2⟩ := hwf
  unfold autokey_avail at h
  have hcnt := count_lt_of_wf q ⟨h1, h2⟩
  obtain ⟨buf, hd, tl⟩ := q
  simp only [autokey_count, increment_rollover] at *
  split_ifs at * <;> simp [AUTOKEY_BUF_SZ] at * <;> omega

theorem enqueue_spec (q : AutokeyQueue) (el : Element) (hwf : q.wf)
    (h : autokey_avail q ≠ 0) :
    (autokey_enqueue q el).1 = true ∧ (autokey_enqueue q el).2.wf ∧
      toList (autokey_enqueue q el).2 = toList q ++ [el] := by
  have h1 := hwf.1
  have h2 := hwf.2
  have hcnt := count_lt_of_wf q hwf
  have hmod := tail_add_count_mod q hwf
  unfold autokey_enqueue
  rw [if_neg h]
  refine ⟨rfl, ⟨?_, h2⟩, ?_⟩
  · show increment_rollover q.head AUTOKEY_BUF_SZ < AUTOKEY_BUF_SZ
    rw [increment_rollover_eq_mod q.head h1]
    exact Nat.mod_lt _ (by decide)
  · show toList
      { q with
        buf := Function.update q.buf q.head el
        head := increment_rollover q.head AUTOKEY_BUF_SZ } = toList q ++ [el]
    unfold toList
    rw [count_enqueue q el hwf h]
    show (List.range (autokey_count q + 1)).map
        (fun i => Function.update q.buf q.head el ((q.tail + i) % AUTOKEY_BUF_SZ)) = _
    rw [List.range_succ, List.map_append]
    congr 1
    · apply List.map_congr_left
      intro i hi
      have hilt : i < autokey_count q := List.mem_range.mp hi
      apply Function.update_noteq
      intro hcontra
      have : i = autokey_count q :=
        mod_add_inj (lt_trans hilt hcnt) hcnt (hcontra.trans hmod.symm)
      omega
    · simp only [List.map_cons, List.map_nil]
      rw [hmod, Function.update_same]

theorem count_dequeue (q : AutokeyQueue) (hwf : q.wf) (h : autokey_count q ≠ 0) :
    autokey_count { q with tail := increment_rollover q.tail AUTOKEY_BUF_SZ } =
      autokey_count q - 1 := by
  obtain ⟨h1, h2⟩ := hwf
  obtain ⟨buf, hd, tl⟩ := q
  simp only [autokey_count, increment_rollover] at *
  split_ifs at * <;> simp [AUTOKEY_BUF_SZ] at * <;> omega

theorem dequeue_spec (q : AutokeyQueue) (hwf : q.wf) (h : autokey_count q ≠ 0) :
    autokey_dequeue q =
      Option.some (q.buf q.tail,
        { q with tail := increment_rollover q.tail AUTOKEY_BUF_SZ }) ∧
    ({ q with tail := increment_rollover q.tail AUTOKEY_BUF_SZ } : AutokeyQueue).wf ∧
    toList q =
      q.buf q.tail ::
        toList { q with tail := increment_rollover q.tail AUTOKEY_BUF_SZ } := by
  have h1 := hwf.1
  have h2 := hwf.2
  refine ⟨by unfold autokey_dequeue; rw [if_neg h], ⟨h1, ?_⟩, ?_⟩
  · show increment_rollover q.tail AUTOKEY_BUF_SZ < AUTOKEY_BUF_SZ
    rw [increment_rollover_eq_mod q.tail h2]
    exact Nat.mod_lt _ (by decide)
  · obtain ⟨c, hc⟩ : ∃ c, autokey_count q = c + 1 :=
      ⟨autokey_count q - 1, by omega⟩
    unfold toList
    rw [count_dequeue q hwf h, hc]
    show (List.range (c + 1)).map (fun i => q.buf ((q.tail + i) % AUTOKEY_BUF_SZ)) =
      q.buf q.tail ::
        (List.range (c + 1 - 1)).map
          (fun i => q.buf ((increment_rollover q.tail AUTOKEY_BUF_SZ + i) % AUTOKEY_BUF_SZ))
    rw [List.range_succ_eq_map, List.map_cons, List.map_map]
    simp only [Nat.add_sub_cancel]
    congr 1
    · rw [Nat.add_zero, Nat.mod_eq_of_lt h2]
    · apply List.map_congr_left
      intro i _
      show q.buf ((q.tail + Nat.succ i) % AUTOKEY_BUF_SZ) =
        q.buf ((increment_rollover q.tail AUTOKEY_BUF_SZ + i) % AUTOKEY_BUF_SZ)
      rw [increment_rollover_eq_mod q.tail h2, Nat.mod_add_mod]
      have harith : q.tail + Nat.succ i = q.tail + 1 + i := by omega
      rw [harith]

/-- Repeated `autokey_dequeue`: the elements obtained by `n` dequeues,
stopping early if the queue empties. -/
def dequeue_n (q : AutokeyQueue) : Nat → List Element
  | 0 => []
  | Nat.succ n =>
    match autokey_dequeue q with
    | Option.none => []
    | Option.some (el, q2) => el :: dequeue_n q2 n

theorem toList_empty : toList emptyQueue = [] := rfl

theorem enqueue_all_spec (els : List Element) : ∀ q : AutokeyQueue, q.wf →
    autokey_count q + els.length < AUTOKEY_BUF_SZ →
    (enqueue_all q els).1 = true ∧ (enqueue_all q els).2.wf ∧
      toList (enqueue_all q els).2 = toList q ++ els := by
  induction els with
  | nil =>
    intro q hwf _
    exact ⟨rfl, hwf, by simp [enqueue_all]⟩
  | cons el rest ih =>
    intro q hwf hlen
    have hcnt := count_lt_of_wf q hwf
    have havail : autokey_avail q ≠ 0 := by
      unfold autokey_avail
      simp only [List.length_cons] at hlen
      omega
    obtain ⟨hok, hwf2, hlist⟩ := enqueue_spec q el hwf havail
    rcases hpe : autokey_enqueue q el with ⟨b, q2⟩
    rw [hpe] at hok hwf2 hlist
    simp only at hok hlist
    subst hok
    have hc2 : autokey_count q2 = autokey_count q + 1 := by
      rw [← length_toList, hlist, List.length_append, length_toList]
      rfl
    have hlen2 : autokey_count q2 + rest.length < AUTOKEY_BUF_SZ := by
      simp only [List.length_cons] at hlen
      omega
    obtain ⟨hf, hwf3, hl⟩ := ih q2 hwf2 hlen2
    refine ⟨?_, ?_, ?_⟩
    · show (enqueue_all q (el :: rest)).1 = true
      simp only [enqueue_all, hpe]
      exact hf
    · show (enqueue_all q (el :: rest)).2.wf
      simp only [enqueue_all, hpe]
      exact hwf3
    · show toList (enqueue_all q (el :: rest)).2 = toList q ++ (el :: rest)
      simp only [enqueue_all, hpe]
      rw [hl, hlist, List.append_assoc]
      rfl

theorem dequeue_n_toList (l : List Element) : ∀ q : AutokeyQueue, q.wf →
    toList q = l → dequeue_n q l.length = l := by
  induction l with
  | nil => intro q _ _; rfl
  | cons el rest ih =>
    intro q hwf hl
    have hcnt : autokey_count q ≠ 0 := by
      rw [← length_toList, hl]
      simp
    obtain ⟨hdq, hwf2, hsplit⟩ := dequeue_spec q hwf hcnt
    rw [hl] at hsplit
    have hel : el = q.buf q.tail := (List.cons.injEq _ _ _ _ ▸ hsplit).1
    have hrest :
        toList { q with tail := increment_rollover q.tail AUTOKEY_BUF_SZ } = rest :=
      ((List.cons.injEq _ _ _ _ ▸ hsplit).2).symm
    show dequeue_n q (rest.length + 1) = el :: rest
    simp only [dequeue_n, hdq]
    rw [ih _ hwf2 hrest, hel]

theorem enqueue_all_full (els : List Element) (q : AutokeyQueue)
    (h : autokey_avail q = 0) (hne : els ≠ []) :
    enqueue_all q els = (false, q) := by
  cases els with
  | nil => cases hne rfl
  | cons el rest => simp [enqueue_all, autokey_enqueue, h]

theorem enqueue_all_partial (els : List Element) : ∀ q : AutokeyQueue, q.wf →
    0 < autokey_avail q → autokey_avail q < els.length →
    (enqueue_all q els).1 = false ∧
      toList (enqueue_all q els).2 = toList q ++ els.take (autokey_avail q) := by
  induction els with
  | nil =>
    intro q _ h0 hlt
    simp only [List.length_nil] at hlt
    omega
  | cons el rest ih =>
    intro q hwf h0 hlt
    have hcnt := count_lt_of_wf q hwf
    have havail : autokey_avail q ≠ 0 := by omega
    obtain ⟨hok, hwf2, hlist⟩ := enqueue_spec q el hwf havail
    rcases hpe : autokey_enqueue q el with ⟨b, q2⟩
    rw [hpe] at hok hwf2 hlist
    simp only at hok hlist
    subst hok
    have hc2 : autokey_count q2 = autokey_count q + 1 := by
      rw [← length_toList, hlist, List.length_append, length_toList]
      rfl
    have ha2 : autokey_avail q2 = autokey_avail q - 1 := by
      unfold autokey_avail
      unfold autokey_avail at h0
      omega
    obtain ⟨k, hk⟩ : ∃ k, autokey_avail q = k + 1 := ⟨autokey_avail q - 1, by omega⟩
    by_cases hz : autokey_avail q2 = 0
    · have hq1 : autokey_avail q = 1 := by omega
      have hrest : rest ≠ [] := by
        intro hre
        subst hre
        simp only [List.length_cons, List.length_nil] at hlt
        omega
      refine ⟨?_, ?_⟩
      · show (enqueue_all q (el :: rest)).1 = false
        simp only [enqueue_all, hpe, enqueue_all_full rest q2 hz hrest]
      · show toList (enqueue_all q (el :: rest)).2 = toList q ++ (el :: rest).take (autokey_avail q)
        simp only [enqueue_all, hpe, enqueue_all_full rest q2 hz hrest, hq1]
        rw [hlist]
        rfl
    · have h02 : 0 < autokey_avail q2 := by omega
      have hlt2 : autokey_avail q2 < rest.length := by
        simp only [List.length_cons] at hlt
        omega
      obtain ⟨hf, hl⟩ := ih q2 hwf2 h02 hlt2
      refine ⟨?_, ?_⟩
      · show (enqueue_all q (el :: rest)).1 = false
        simp only [enqueue_all, hpe]
        exact hf
      · show toList (enqueue_all q (el :: rest)).2 = toList q ++ (el :: rest).take (autokey_avail q)
        simp only [enqueue_all, hpe]
        rw [hl, hlist, hk, List.take_succ_cons, ha2, hk]
        simp [List.append_assoc]

/-! ## Spec-side transition rule (for claim C1) -/

/-- The transition rule as the spec words it: autokey queue first, then
straight key, then both-paddles per mode (Iambic → interleaved; Ultimatic →
keep state; Ultimatic-Alternate → the state of the paddle with a fresh
rising edge, left checked first, unchanged if neither), then exactly one
paddle mapped per the invert setting, else off. -/
def next_state_spec (autokeyNonempty straight left right prevLeft prevRight invert : Bool)
    (mode : PaddleMode) (cur : State) : State :=
  if autokeyNonempty then State.autokey
  else if straight then State.on
  else if left = true ∧ right = true then
    match mode with
    | PaddleMode.iambic => State.interleaved
    | PaddleMode.ultimatic => cur
    | PaddleMode.ultimaticAlternate =>
      if left = true ∧ prevLeft = false then
        (if invert then State.dashes else State.dots)
      else if right = true ∧ prevRight = false then
        (if invert then State.dots else State.dashes)
      else cur
  else if left ≠ right then
    -- exactly one paddle active: dots/dashes per the invert mapping
    if (left = true ∧ invert = false) ∨ (right = true ∧ invert = true) then State.dots
    else State.dashes
  else State.off

/-! ## Claim theorems -/

/-- C1: on every evaluation tick the next keyer state is selected by the
spec's priority order — autokey queue non-empty, straight key, both paddles
(per paddle mode), exactly one paddle (per invert), else off.  Proved by
exhausting all inputs. -/
theorem C1_next_state_priority :
    ∀ (autokeyNonempty straight left right prevLeft prevRight invert : Bool)
      (mode : PaddleMode) (cur : State),
      next_state autokeyNonempty straight left right prevLeft prevRight invert mode cur =
        next_state_spec autokeyNonempty straight left right prevLeft prevRight invert
          mode cur := by
  decide

/-- C4: at 20 WPM with every scale factor 1.0, the element duration table is
dot = 60 ms, dash = 180 ms, element-space = 60 ms, letter-space = 180 ms,
word-space = 420 ms (ticks at 1 tick/ms), independent of the previous table
contents.  The unit duration is 60000 / (20 × 50) = 60 ms. -/
theorem C4_wpm_ticks_at_20 :
    ∀ old : WpmTicks,
      wpm_ticks 20 (fun _ => 1) old =
        { dot := 60, dash := 180, elSpace := 60, letterSpace := 180, wordSpace := 420 } ∧
      MSEC_PER_MIN / (20 * WORD_UNIT_LENGTH) = 60 := by
  intro old
  constructor
  · unfold wpm_ticks
    rw [if_neg (by norm_num [WPM_MINIMUM, WPM_MAXIMUM])]
    norm_num [round_eq, MSEC_PER_MIN, WORD_UNIT_LENGTH, TICKS_PER_MSEC,
      WpmTicks.mk.injEq]
    omega
  · norm_num [MSEC_PER_MIN, WORD_UNIT_LENGTH]

/-- C5 (amended): `sys_is_tick_gt a b` is true iff the forward distance
`d = (a - b) mod 2^32` is nonzero and either `d < 2^31`, or `d = 2^31` with
`a < b` numerically.  (The claim's condition `0 < d < 2^31` misses the
midpoint case `d = 2^31, a < b`, where the code also answers true.) -/
theorem C5_is_tick_gt_characterization (a b : Nat) (ha : a < U32) (hb : b < U32) :
    sys_is_tick_gt a b = true ↔
      ((a + U32 - b) % U32 ≠ 0 ∧
        ((a + U32 - b) % U32 < 2 ^ 31 ∨
          ((a + U32 - b) % U32 = 2 ^ 31 ∧ a < b))) := by
  simp only [U32] at ha hb
  simp only [sys_is_tick_gt, TICK_MAX, U32, Bool.or_eq_true, Bool.and_eq_true,
    decide_eq_true_eq, gt_iff_lt]
  omega

/-- Witness for C5 at `a = 5`, `b = 3`. -/
theorem C5_witness :
    5 < U32 ∧ 3 < U32 ∧
      (sys_is_tick_gt 5 3 = true ↔
        ((5 + U32 - 3) % U32 ≠ 0 ∧
          ((5 + U32 - 3) % U32 < 2 ^ 31 ∨
            ((5 + U32 - 3) % U32 = 2 ^ 31 ∧ 5 < 3)))) :=
  ⟨by decide, by decide, C5_is_tick_gt_characterization 5 3 (by decide) (by decide)⟩

/-- C5 counterexample: at `a = 0`, `b = 2^31` the forward distance is
exactly `2^31` (not `< 2^31`), yet the code returns true. -/
theorem C5_counterexample :
    sys_is_tick_gt 0 2147483648 = true ∧
      ¬ ((0 + U32 - 2147483648) % U32 ≠ 0 ∧
          (0 + U32 - 2147483648) % U32 < 2 ^ 31) := by
  decide

/-- C6: `sys_elapsed` inverts tick addition — for every `prev` and offset
`k ≤ TICK_MAX`, `elapsed((prev + k) mod 2^32, prev) = k`; equivalently it
returns `now - prev` when `now ≥ prev` and `(TICK_MAX - prev + 1) + now`
otherwise. -/
theorem C6_sys_elapsed_spec (t k now : Nat) (ht : t < U32) (hk : k ≤ TICK_MAX)
    (hnow : now < U32) :
    sys_elapsed ((t + k) % U32) t = k ∧
      (t ≤ now → sys_elapsed now t = now - t) ∧
      (now < t → sys_elapsed now t = (TICK_MAX - t + 1) + now) := by
  unfold sys_elapsed
  simp only [U32, TICK_MAX] at *
  refine ⟨?_, ?_, ?_⟩
  · split_ifs <;> omega
  · intro h
    split_ifs <;> omega
  · intro h
    split_ifs <;> omega

/-- Witness for C6 near the wraparound: `t = 2^32 - 5`, `k = 10`,
`now = 3`. -/
theorem C6_witness :
    4294967291 < U32 ∧ 10 ≤ TICK_MAX ∧ 3 < U32 ∧
      (sys_elapsed ((4294967291 + 10) % U32) 4294967291 = 10 ∧
        (4294967291 ≤ 3 → sys_elapsed 3 4294967291 = 3 - 4294967291) ∧
        (3 < 4294967291 →
          sys_elapsed 3 4294967291 = (TICK_MAX - 4294967291 + 1) + 3)) :=
  ⟨by decide, by decide, by decide,
    C6_sys_elapsed_spec 4294967291 10 3 (by decide) (by decide) (by decide)⟩

/-- C3: the autokey queue is a bounded FIFO with one slot kept free
(capacity 4096, at most 4095 stored): enqueueing any `N < 4096` elements
into the empty queue succeeds and dequeueing `N` returns them in order; an
enqueue on a full queue fails leaving the queue (contents, head, tail)
unchanged; a dequeue on an empty queue fails leaving it unchanged. -/
theorem C3_autokey_fifo (els : List Element) (q : AutokeyQueue) (el : Element)
    (hlen : els.length < AUTOKEY_BUF_SZ) (hwf : q.wf) :
    ((enqueue_all emptyQueue els).1 = true ∧
      dequeue_n (enqueue_all emptyQueue els).2 els.length = els) ∧
    autokey_count q < AUTOKEY_BUF_SZ ∧
    (autokey_avail q = 0 → autokey_enqueue q el = (false, q)) ∧
    (autokey_count q = 0 → autokey_dequeue q = Option.none) := by
  refine ⟨?_, count_lt_of_wf q hwf, ?_, ?_⟩
  · have hwe : emptyQueue.wf := by decide
    have hcnt : autokey_count emptyQueue + els.length < AUTOKEY_BUF_SZ := by
      have hz : autokey_count emptyQueue = 0 := rfl
      omega
    obtain ⟨h1, h2, h3⟩ := enqueue_all_spec els emptyQueue hwe hcnt
    rw [toList_empty, List.nil_append] at h3
    exact ⟨h1, dequeue_n_toList els _ h2 h3⟩
  · intro h
    unfold autokey_enqueue
    rw [if_pos h]
  · intro h
    unfold autokey_dequeue
    rw [if_pos h]

/-- Witness for C3 with `els = [dot, dash]` and a full queue
(head = 4095, tail = 0). -/
theorem C3_witness :
    ([Element.dot, Element.dash].length < AUTOKEY_BUF_SZ ∧
      (⟨fun _ => Element.dot, 4095, 0⟩ : AutokeyQueue).wf) ∧
    (((enqueue_all emptyQueue [Element.dot, Element.dash]).1 = true ∧
      dequeue_n (enqueue_all emptyQueue [Element.dot, Element.dash]).2
        [Element.dot, Element.dash].length = [Element.dot, Element.dash]) ∧
    autokey_count ⟨fun _ => Element.dot, 4095, 0⟩ < AUTOKEY_BUF_SZ ∧
    (autokey_avail ⟨fun _ => Element.dot, 4095, 0⟩ = 0 →
      autokey_enqueue ⟨fun _ => Element.dot, 4095, 0⟩ Element.dot =
        (false, ⟨fun _ => Element.dot, 4095, 0⟩)) ∧
    (autokey_count ⟨fun _ => Element.dot, 4095, 0⟩ = 0 →
      autokey_dequeue ⟨fun _ => Element.dot, 4095, 0⟩ = Option.none)) :=
  ⟨⟨by decide, by decide⟩,
    C3_autokey_fifo [Element.dot, Element.dash]
      ⟨fun _ => Element.dot, 4095, 0⟩ Element.dot (by decide) (by decide)⟩

/-- C7 (amended): encoding a supported character appends exactly that
character's element run from the table; the run ends in a letter-space for
every supported character except the space (a single word-space) and except
`'!'` and `'-'` (whose runs end with their final dash, with no letter-space
terminator); encoding an unsupported character fails and leaves the queue
unchanged. -/
theorem C7_encode_char (q : AutokeyQueue) (c : Char) (hwf : q.wf) :
    (∀ els, morse_elements c = Option.some els →
      autokey_count q + els.length < AUTOKEY_BUF_SZ →
      (keyer_autokey_char q c).1 = true ∧
        toList (keyer_autokey_char q c).2 = toList q ++ els ∧
        (c = ' ' → els = [Element.wordSpace]) ∧
        (c ≠ ' ' → c ≠ '!' → c ≠ '-' →
          els.getLast? = Option.some Element.letterSpace)) ∧
    (morse_elements c = Option.none → keyer_autokey_char q c = (false, q)) := by
  constructor
  · intro els hm hlen
    have htable : ∀ p ∈ morse_table,
        (p.1 = ' ' → p.2 = [Element.wordSpace]) ∧
        (p.1 ≠ ' ' → p.1 ≠ '!' → p.1 ≠ '-' →
          p.2.getLast? = Option.some Element.letterSpace) := by decide
    unfold morse_elements at hm
    rcases hfind : morse_table.find? (fun e => decide (e.1 = c)) with _ | p
    · rw [hfind] at hm
      cases hm
    · rw [hfind] at hm
      simp only [Option.map_some'] at hm
      have hc : p.1 = c := by
        have hp := List.find?_some hfind
        simpa using hp
      have hmem : p ∈ morse_table := List.mem_of_find?_eq_some hfind
      obtain ⟨hsp, hlast⟩ := htable p hmem
      obtain ⟨h1, _, h3⟩ := enqueue_all_spec els q hwf hlen
      have hchar : keyer_autokey_char q c = enqueue_all q els := by
        unfold keyer_autokey_char morse_elements
        rw [hfind]
        simp only [Option.map_some', hm]
      have hpe : p.2 = els := by injection hm
      rw [hchar]
      refine ⟨h1, h3, ?_, ?_⟩
      · intro hcsp
        rw [← hpe]
        exact hsp (hc.trans hcsp)
      · intro hn1 hn2 hn3
        rw [← hpe]
        exact hlast (hc ▸ hn1) (hc ▸ hn2) (hc ▸ hn3)
  · intro hm
    unfold keyer_autokey_char
    rw [hm]

/-- Witness for C7 at the empty queue and character `'a'`. -/
theorem C7_witness :
    emptyQueue.wf ∧
    ((∀ els, morse_elements 'a' = Option.some els →
      autokey_count emptyQueue + els.length < AUTOKEY_BUF_SZ →
      (keyer_autokey_char emptyQueue 'a').1 = true ∧
        toList (keyer_autokey_char emptyQueue 'a').2 = toList emptyQueue ++ els ∧
        ('a' = ' ' → els = [Element.wordSpace]) ∧
        ('a' ≠ ' ' → 'a' ≠ '!' → 'a' ≠ '-' →
          els.getLast? = Option.some Element.letterSpace)) ∧
    (morse_elements 'a' = Option.none →
      keyer_autokey_char emptyQueue 'a' = (false, emptyQueue))) :=
  ⟨by decide, C7_encode_char emptyQueue 'a' (by decide)⟩

/-- C7 counterexample: encoding `'!'` succeeds but the appended run is not
terminated by a letter-space — its last element is a dash. -/
theorem C7_counterexample :
    morse_elements '!' =
      Option.some [Element.dash, Element.dot, Element.dash, Element.dot,
        Element.dash, Element.dash] ∧
    (keyer_autokey_char emptyQueue '!').1 = true ∧
    toList (keyer_autokey_char emptyQueue '!').2 =
      [Element.dash, Element.dot, Element.dash, Element.dot, Element.dash,
        Element.dash] ∧
    [Element.dash, Element.dot, Element.dash, Element.dot, Element.dash,
        Element.dash].getLast? ≠ Option.some Element.letterSpace := by
  decide

/-- C10: enqueueing a character is not atomic w.r.t. queue exhaustion — with
at least one free slot but fewer than the run length, `keyer_autokey_char`
fails yet the first `avail` elements stay enqueued, and `keyer_autokey_str`
does not count the character but still attempts the remaining ones. -/
theorem C10_enqueue_char_not_atomic (q : AutokeyQueue) (c : Char)
    (els : List Element) (cs : List Char) (hwf : q.wf)
    (hm : morse_elements c = Option.some els)
    (h0 : 0 < autokey_avail q) (hlt : autokey_avail q < els.length) :
    (keyer_autokey_char q c).1 = false ∧
      toList (keyer_autokey_char q c).2 = toList q ++ els.take (autokey_avail q) ∧
      keyer_autokey_str q (c :: cs) =
        keyer_autokey_str (keyer_autokey_char q c).2 cs := by
  have hchar : keyer_autokey_char q c = enqueue_all q els := by
    unfold keyer_autokey_char
    rw [hm]
  obtain ⟨hf, hl⟩ := enqueue_all_partial els q hwf h0 hlt
  have hf' : (keyer_autokey_char q c).1 = false := by rw [hchar]; exact hf
  refine ⟨hf', by rw [hchar]; exact hl, ?_⟩
  rcases hpc : keyer_autokey_char q c with ⟨ok, q2⟩
  have hok : ok = false := by rw [hpc] at hf'; exact hf'
  subst hok
  rcases hps : keyer_autokey_str q2 cs with ⟨n, q3⟩
  simp only [keyer_autokey_str, hpc, hps, if_neg Bool.false_ne_true, Nat.zero_add]

/-- Witness for C10: queue with one free slot (head = 4094, tail = 0),
character `'a'` (three elements), empty remaining string. -/
theorem C10_witness :
    ((⟨fun _ => Element.dot, 4094, 0⟩ : AutokeyQueue).wf ∧
      morse_elements 'a' =
        Option.some [Element.dot, Element.dash, Element.letterSpace] ∧
      0 < autokey_avail ⟨fun _ => Element.dot, 4094, 0⟩ ∧
      autokey_avail ⟨fun _ => Element.dot, 4094, 0⟩ <
        [Element.dot, Element.dash, Element.letterSpace].length) ∧
    ((keyer_autokey_char ⟨fun _ => Element.dot, 4094, 0⟩ 'a').1 = false ∧
      toList (keyer_autokey_char ⟨fun _ => Element.dot, 4094, 0⟩ 'a').2 =
        toList ⟨fun _ => Element.dot, 4094, 0⟩ ++
          [Element.dot, Element.dash, Element.letterSpace].take
            (autokey_avail ⟨fun _ => Element.dot, 4094, 0⟩) ∧
      keyer_autokey_str ⟨fun _ => Element.dot, 4094, 0⟩ ('a' :: []) =
        keyer_autokey_str
          (keyer_autokey_char ⟨fun _ => Element.dot, 4094, 0⟩ 'a').2 []) :=
  ⟨⟨by decide, by decide, by decide, by decide⟩,
    C10_enqueue_char_not_atomic ⟨fun _ => Element.dot, 4094, 0⟩ 'a'
      [Element.dot, Element.dash, Element.letterSpace] [] (by decide) (by decide)
      (by decide) (by decide)⟩

/-! ## Keyer state-machine lemmas -/

/-- All three hardware outputs agree with the logical keyed flag (key output
additionally gated by trainer mode). -/
def hwSync (s : Keyer) : Prop :=
  s.hw.ledKey = s.keyed ∧ s.hw.buzzer = s.keyed ∧
    s.hw.keyOut = (s.keyed && !s.trainer_mode)

instance (s : Keyer) : Decidable (hwSync s) := by
  unfold hwSync; infer_instance

theorem hwSync_update_hardware (s : Keyer) : hwSync (update_hardware s) := by
  simp [hwSync, update_hardware]

theorem hwSync_set_keyed (s : Keyer) (b : Bool) : hwSync (set_keyed s b) :=
  hwSync_update_hardware _

theorem do_state_element_panicked (tick : Nat) (el : Element) (s : Keyer) :
    (do_state_element tick el s).panicked = s.panicked := by
  unfold do_state_element
  split_ifs <;> rfl

theorem do_state_autokey_panicked (tick : Nat) (s : Keyer) :
    (do_state_autokey tick s).panicked = s.panicked := by
  unfold do_state_autokey
  rcases hdq : autokey_dequeue s.autokey with _ | ⟨el, q2⟩ <;>
    simp only [hdq] <;> split_ifs <;> rfl

theorem do_state_off_panicked (tick : Nat) (s : Keyer) :
    (do_state_off tick s).panicked = s.panicked := by
  unfold do_state_off
  dsimp only
  split_ifs <;> rfl

theorem do_state_on_panicked (new_state : Bool) (s : Keyer) :
    (do_state_on new_state s).panicked = s.panicked := by
  unfold do_state_on
  split_ifs <;> rfl

theorem update_ticks_state (e : Env) (tick : Nat) (s : Keyer) :
    (update_ticks e tick s).state = s.state := by
  unfold update_ticks
  split_ifs <;> rfl

theorem update_ticks_panicked (e : Env) (tick : Nat) (s : Keyer) :
    (update_ticks e tick s).panicked = s.panicked := by
  unfold update_ticks
  split_ifs <;> rfl

theorem get_next_state_update_ticks (e : Env) (tick : Nat) (s : Keyer) :
    get_next_state e (update_ticks e tick s) = get_next_state e s := by
  unfold update_ticks
  split_ifs <;> rfl

theorem keyer_tick_panicked (e : Env) (tick : Nat) (s : Keyer) :
    (keyer_tick e tick s).panicked =
      (if get_next_state e s ≠ s.state then false else s.panicked) := by
  have hgns := get_next_state_update_ticks e tick s
  have hst := update_ticks_state e tick s
  have hpan := update_ticks_panicked e tick s
  unfold keyer_tick
  dsimp only
  rw [hgns, hst, hpan]
  rcases hx : get_next_state e s with _ | _ | _ | _ | _ | _ <;>
    split_ifs <;>
      simp_all [do_state_off_panicked, do_state_on_panicked, do_state_dots,
        do_state_dashes, do_state_interleaved, do_state_element_panicked,
        do_state_autokey_panicked]

theorem keyer_panic_fields (s : Keyer) :
    (keyer_panic s).panicked = true ∧ (keyer_panic s).keyed = false ∧
      autokey_count (keyer_panic s).autokey = 0 := by
  refine ⟨rfl, rfl, ?_⟩
  simp [keyer_panic, set_keyed, update_hardware, autokey_count]

theorem hwSync_do_state_element (tick : Nat) (el : Element) (s : Keyer)
    (h : hwSync s) : hwSync (do_state_element tick el s) := by
  unfold do_state_element
  split_ifs <;> first | exact hwSync_set_keyed _ _ | exact h

theorem hwSync_do_state_autokey (tick : Nat) (s : Keyer) (h : hwSync s) :
    hwSync (do_state_autokey tick s) := by
  unfold do_state_autokey
  rcases hdq : autokey_dequeue s.autokey with _ | ⟨el, q2⟩ <;>
    simp only [hdq] <;> split_ifs <;>
    first | exact hwSync_set_keyed _ _ | exact h

theorem hwSync_do_state_off (tick : Nat) (s : Keyer) (h : hwSync s) :
    hwSync (do_state_off tick s) := by
  unfold do_state_off
  dsimp only
  split_ifs <;> first | exact hwSync_set_keyed _ _ | exact h

theorem hwSync_do_state_on (new_state : Bool) (s : Keyer) (h : hwSync s) :
    hwSync (do_state_on new_state s) := by
  unfold do_state_on
  split_ifs <;> first | exact hwSync_set_keyed _ _ | exact h

theorem hwSync_update_ticks (e : Env) (tick : Nat) (s : Keyer) (h : hwSync s) :
    hwSync (update_ticks e tick s) := by
  unfold update_ticks
  split_ifs <;> exact h

theorem hwSync_keyer_tick (e : Env) (tick : Nat) (s : Keyer) (h : hwSync s) :
    hwSync (keyer_tick e tick s) := by
  have h1 : hwSync (update_ticks e tick s) := hwSync_update_ticks e tick s h
  unfold keyer_tick
  dsimp only
  rcases hx : get_next_state e (update_ticks e tick s) with _ | _ | _ | _ | _ | _ <;>
    split_ifs <;>
    first
      | exact hwSync_do_state_off _ _ h1
      | exact hwSync_do_state_on _ _ h1
      | exact hwSync_do_state_element _ _ _ h1
      | exact hwSync_do_state_autokey _ _ h1

theorem do_state_element_trainer (tick : Nat) (el : Element) (s : Keyer) :
    (do_state_element tick el s).trainer_mode = s.trainer_mode := by
  unfold do_state_element
  split_ifs <;> rfl

theorem do_state_autokey_trainer (tick : Nat) (s : Keyer) :
    (do_state_autokey tick s).trainer_mode = s.trainer_mode := by
  unfold do_state_autokey
  rcases hdq : autokey_dequeue s.autokey with _ | ⟨el, q2⟩ <;>
    simp only [hdq] <;> split_ifs <;> rfl

theorem do_state_off_trainer (tick : Nat) (s : Keyer) :
    (do_state_off tick s).trainer_mode = s.trainer_mode := by
  unfold do_state_off
  dsimp only
  split_ifs <;> rfl

theorem do_state_on_trainer (new_state : Bool) (s : Keyer) :
    (do_state_on new_state s).trainer_mode = s.trainer_mode := by
  unfold do_state_on
  split_ifs <;> rfl

theorem update_ticks_trainer (e : Env) (tick : Nat) (s : Keyer) :
    (update_ticks e tick s).trainer_mode = s.trainer_mode := by
  unfold update_ticks
  split_ifs <;> rfl

theorem update_ticks_keyed (e : Env) (tick : Nat) (s : Keyer) :
    (update_ticks e tick s).keyed = s.keyed := by
  unfold update_ticks
  split_ifs <;> rfl

theorem keyer_tick_trainer (e : Env) (tick : Nat) (s : Keyer) :
    (keyer_tick e tick s).trainer_mode = s.trainer_mode := by
  have h1 := update_ticks_trainer e tick s
  unfold keyer_tick
  dsimp only
  rcases hx : get_next_state e (update_ticks e tick s) with _ | _ | _ | _ | _ | _ <;>
    split_ifs <;>
    simp only [do_state_off_trainer, do_state_on_trainer, do_state_dots,
      do_state_dashes, do_state_interleaved, do_state_element_trainer,
      do_state_autokey_trainer] <;>
    exact h1

theorem keyer_tick_on_keyed (e : Env) (tick : Nat) (s : Keyer)
    (hkey : e.straight_key = true) (hq : autokey_count s.autokey = 0)
    (hp : s.panicked = false) :
    (keyer_tick e tick s).keyed = true := by
  have hgns : get_next_state e (update_ticks e tick s) = State.on := by
    rw [get_next_state_update_ticks]
    unfold get_next_state next_state
    simp [hq, hkey]
  have hpan := update_ticks_panicked e tick s
  have hkd := update_ticks_keyed e tick s
  unfold keyer_tick
  dsimp only
  rw [hgns]
  split_ifs with hcond <;>
    · unfold do_state_on
      split_ifs with hcond2 <;> simp_all [set_keyed, update_hardware]

theorem keyer_init_autokey (e : Env) (tick : Nat) (s : Keyer) :
    (keyer_init e tick s).autokey = s.autokey := by
  unfold keyer_init update_ticks set_keyed update_hardware
  dsimp only
  split_ifs <;> rfl

/-- A concrete environment: straight key held, no paddles, iambic mode,
20 WPM, unit scales. -/
def envDemo : Env :=
  { straight_key := true, paddle_left := false, paddle_right := false
    paddle_invert := false, paddle_mode := PaddleMode.iambic
    wpm := 20, scale := fun _ => 1 }

/-- A concrete keyer state: idle, trainer mode on, hardware in sync. -/
def keyerDemo : Keyer :=
  { keyed := false, panicked := false, trainer_mode := true
    state := State.off, el := Element.noneEl, lockout_el := Element.noneEl
    el_stop_tick := 0, el_stop_tick_vld := false
    el_start_tick := 0, el_start_tick_vld := false
    autokey := emptyQueue
    ticks := { dot := 0, dash := 0, elSpace := 0, letterSpace := 0, wordSpace := 0 }
    ticks_tick := 0
    prev_paddle_left := false, prev_paddle_right := false
    hw := { keyOut := false, ledKey := false, buzzer := false } }

/-- `keyerDemo` with one element sitting in the autokey queue. -/
def keyerDemoQueued : Keyer :=
  { keyerDemo with autokey := { buf := fun _ => Element.dot, head := 1, tail := 0 } }

/-! ## Claim theorems for the keyer state machine -/

/-- C2: `keyer_panic` in any state sets the panicked flag, makes the keyed
flag false within the same call and empties the autokey queue; on every
subsequent `keyer_tick` the panicked flag is cleared exactly when the
selected state differs from the prior state (a transition), and is kept
otherwise. -/
theorem C2_panic_semantics (s : Keyer) (e : Env) (tick : Nat) :
    ((keyer_panic s).panicked = true ∧ (keyer_panic s).keyed = false ∧
      autokey_count (keyer_panic s).autokey = 0) ∧
    (keyer_tick e tick s).panicked =
      (if get_next_state e s ≠ s.state then false else s.panicked) :=
  ⟨keyer_panic_fields s, keyer_tick_panicked e tick s⟩

/-- C8: `hwSync` (LED = sidetone = keyed flag; key output = keyed flag
gated by trainer mode) holds after every keyer operation — preserved by
`keyer_tick` and established outright by `keyer_panic`, `keyer_init` and
`keyer_set_trainer_mode_enabled`; and with trainer mode on, the queue empty
and the straight key held, a tick leaves the keyed flag, LED and sidetone
true while the key output stays off. -/
theorem C8_hardware_sync (e : Env) (tick : Nat) (s : Keyer) (b : Bool)
    (h : hwSync s) :
    hwSync (keyer_tick e tick s) ∧ hwSync (keyer_panic s) ∧
    hwSync (keyer_init e tick s) ∧ hwSync (keyer_set_trainer_mode_enabled b s) ∧
    (e.straight_key = true → autokey_count s.autokey = 0 → s.panicked = false →
      s.trainer_mode = true →
      (keyer_tick e tick s).keyed = true ∧
      (keyer_tick e tick s).hw.ledKey = true ∧
      (keyer_tick e tick s).hw.buzzer = true ∧
      (keyer_tick e tick s).hw.keyOut = false) := by
  refine ⟨hwSync_keyer_tick e tick s h, hwSync_set_keyed _ _,
    hwSync_update_ticks _ _ _ (hwSync_set_keyed _ _), hwSync_update_hardware _, ?_⟩
  intro hkey hq hp ht
  have hk := keyer_tick_on_keyed e tick s hkey hq hp
  obtain ⟨hl, hb, ho⟩ := hwSync_keyer_tick e tick s h
  have htr := keyer_tick_trainer e tick s
  refine ⟨hk, ?_, ?_, ?_⟩
  · rw [hl, hk]
  · rw [hb, hk]
  · rw [ho, hk, htr, ht]
    rfl

/-- Witness for C8: the synced idle state `keyerDemo` (trainer on) under
`envDemo` (straight key held). -/
theorem C8_witness :
    hwSync keyerDemo ∧
    (hwSync (keyer_tick envDemo 0 keyerDemo) ∧ hwSync (keyer_panic keyerDemo) ∧
      hwSync (keyer_init envDemo 0 keyerDemo) ∧
      hwSync (keyer_set_trainer_mode_enabled false keyerDemo) ∧
      (envDemo.straight_key = true → autokey_count keyerDemo.autokey = 0 →
        keyerDemo.panicked = false → keyerDemo.trainer_mode = true →
        (keyer_tick envDemo 0 keyerDemo).keyed = true ∧
        (keyer_tick envDemo 0 keyerDemo).hw.ledKey = true ∧
        (keyer_tick envDemo 0 keyerDemo).hw.buzzer = true ∧
        (keyer_tick envDemo 0 keyerDemo).hw.keyOut = false)) :=
  ⟨by decide, C8_hardware_sync envDemo 0 keyerDemo false (by decide)⟩

/-- C9 (amended): `keyer_init` resets the keyed, panicked and trainer
flags, the state, the current/lockout elements and the scheduled stop/start
ticks — but leaves the autokey queue exactly as it was (the queue is empty
at startup only by static zero-initialization, and `keyer_init` never
touches its head or tail). -/
theorem C9_init_resets (e : Env) (tick : Nat) (s : Keyer) :
    (keyer_init e tick s).keyed = false ∧
    (keyer_init e tick s).panicked = false ∧
    (keyer_init e tick s).trainer_mode = false ∧
    (keyer_init e tick s).state = State.off ∧
    (keyer_init e tick s).el = Element.noneEl ∧
    (keyer_init e tick s).lockout_el = Element.noneEl ∧
    (keyer_init e tick s).el_stop_tick = 0 ∧
    (keyer_init e tick s).el_stop_tick_vld = false ∧
    (keyer_init e tick s).el_start_tick = 0 ∧
    (keyer_init e tick s).el_start_tick_vld = false ∧
    (keyer_init e tick s).autokey = s.autokey := by
  unfold keyer_init update_ticks set_keyed update_hardware
  dsimp only
  split_ifs <;> simp

/-- C9 counterexample: `keyer_init` does not empty the autokey queue — on a
prior state holding one queued element the queue still holds it afterwards,
contradicting the claim that the queue is empty after `initialize()`. -/
theorem C9_counterexample :
    autokey_count (keyer_init envDemo 0 keyerDemoQueued).autokey = 1 ∧
      autokey_count (keyer_init envDemo 0 keyerDemoQueued).autokey ≠ 0 := by
  rw [keyer_init_autokey]
  constructor <;> decide

end Superkey
